import Mathlib

/-!
Shallow embedding of the scheduling / quota-gating / topic-selection /
resumable-publish core of the `shorts` repository, together with proofs
of the spec claims about it.

Conventions of the embedding:
* instants are natural numbers counting seconds (Python `datetime`
  compares exactly, and `(now - last).total_seconds() / 60 < I` for an
  integer `I` is exactly `now - last < 60 * I` in seconds, so integer
  seconds lose nothing for the comparisons the code performs);
* Python dicts become association lists with a replacing update, which
  has the same lookup behaviour;
* the transport collaborator of a resumable upload becomes a stream of
  chunk outcomes, one per `next_chunk()` call; the Python `while` loop
  becomes fuel-indexed recursion (the fuel bound is explicit in each
  theorem and a genuine artifact of embedding an unbounded loop).
-/

namespace Shorts

/-! ### Retry configuration (`app/services/youtube_uploader.py`, lines 36-38) -/

def MAX_RETRIES : Nat := 10

def RETRIABLE_STATUS_CODES : List Nat := [500, 502, 503, 504]

/-- Outcome of one `request.next_chunk()` call of the transport collaborator:
the chunk was the last one and a response is available (`done`), the chunk was
accepted but the transfer is not finished (`again`, Python `response is None`),
the library raised an `HttpError` carrying a status code (`httpErr`), or it
raised some other exception with no status code (`exn`). -/
inductive ChunkResult where
  | done (resp : Nat)
  | again
  | httpErr (code : Nat)
  | exn
deriving DecidableEq, Repr

/-- Outcome of `YouTubeUploader._resumable_upload`: the response on success,
`exhausted` for the `return None` after `retry > MAX_RETRIES`
("Max retries exceeded"), `raised code` for the re-`raise` of a
non-retriable `HttpError`, and `outOfFuel` when the fuel of the embedding
runs out (never reached in the theorems below). -/
inductive UploadOutcome where
  | success (resp : Nat)
  | exhausted
  | raised (code : Nat)
  | outOfFuel
deriving DecidableEq, Repr

/-- One step of the `while response is None` loop of
`YouTubeUploader._resumable_upload` (`youtube_uploader.py`, lines 241-272),
returning (outcome, backoff sleeps in order, number of `next_chunk` calls).
A retriable `HttpError` and any non-`HttpError` exception both set `error`;
the shared error handling then increments `retry`, returns `None` when
`retry > MAX_RETRIES`, and otherwise sleeps `min(2 ** retry, 60)` seconds and
loops with the SAME request object — modelled by consuming the head of the
transport stream and recursing on its tail. A non-retriable `HttpError` is
re-raised. -/
def resumableUploadAux (transport : Nat → ChunkResult) (retry : Nat) :
    Nat → UploadOutcome × List Nat × Nat
  | 0 => (.outOfFuel, [], 0)
  | fuel + 1 =>
    match transport 0 with
    | .done r => (.success r, [], 1)
    | .again =>
      let rest := resumableUploadAux (fun i => transport (i + 1)) retry fuel
      (rest.1, rest.2.1, rest.2.2 + 1)
    | .httpErr code =>
      if code ∈ RETRIABLE_STATUS_CODES then
        if retry + 1 > MAX_RETRIES then (.exhausted, [], 1)
        else
          let rest := resumableUploadAux (fun i => transport (i + 1)) (retry + 1) fuel
          (rest.1, min (2 ^ (retry + 1)) 60 :: rest.2.1, rest.2.2 + 1)
      else (.raised code, [], 1)
    | .exn =>
      if retry + 1 > MAX_RETRIES then (.exhausted, [], 1)
      else
        let rest := resumableUploadAux (fun i => transport (i + 1)) (retry + 1) fuel
        (rest.1, min (2 ^ (retry + 1)) 60 :: rest.2.1, rest.2.2 + 1)

/-- `YouTubeUploader._resumable_upload`: the loop entered with
`retry = 0`. -/
def resumableUpload (transport : Nat → ChunkResult) (fuel : Nat) :
    UploadOutcome × List Nat × Nat :=
  resumableUploadAux transport 0 fuel

/-! ### Association-list model of Python dicts -/

/-- `d.get(k)` / `d[k]` lookup. -/
def dictGet {α : Type} (d : List (String × α)) (k : String) : Option α :=
  (d.find? (fun p => p.1 = k)).map (fun p => p.2)

/-- `d[k] = v` assignment: extensionally a replacing update. -/
def dictSet {α : Type} (d : List (String × α)) (k : String) (v : α) :
    List (String × α) :=
  (k, v) :: d.filter (fun p => p.1 ≠ k)

/-- `del d[k]` / `d.pop(k, None)`. -/
def dictRemove {α : Type} (d : List (String × α)) (k : String) :
    List (String × α) :=
  d.filter (fun p => p.1 ≠ k)

/-! ### `ChannelConfig` and `ChannelManager` state (`channel_manager.py`) -/

/-- The fields of `ChannelConfig` the core logic reads (`channel_manager.py`,
lines 21-47); generation/upload presentation fields not consulted by any
claim are carried as opaque strings where needed. -/
structure ChannelConfig where
  name : String
  topics : List String
  schedule : String
  language : String := "en"
  voice : String := "en-US-JennyNeural-Female"
  min_upload_interval_minutes : Nat := 30
  daily_video_limit : Nat := 3
deriving DecidableEq, Repr

/-- The mutable state of `ChannelManager`: `channels` and `upload_history`
dicts (`channel_manager.py`, lines 77-79). Timestamps are seconds. -/
structure ChannelManager where
  channels : List (String × ChannelConfig)
  upload_history : List (String × List Nat)
deriving DecidableEq, Repr

/-- `ChannelManager.can_upload` (`channel_manager.py`, lines 227-265).
`now` and `todayStart` are the values of `datetime.now()` and its midnight
truncation, in seconds; `todayStart ≤ now` always holds for the real clock.
The Python test `minutes_since < channel.min_upload_interval_minutes`, i.e.
`(now - last).total_seconds() / 60 < I`, is exactly `now - last < 60 * I`.
Returns the decision together with the manager state after the in-place
pruning `self.upload_history[channel_name] = history`. -/
def can_upload (m : ChannelManager) (now todayStart : Nat) (name : String) :
    Bool × ChannelManager :=
  match dictGet m.channels name with
  | none => (false, m)
  | some channel =>
    let history := ((dictGet m.upload_history name).getD []).filter
      (fun t => todayStart ≤ t)
    let m' : ChannelManager :=
      { m with upload_history := dictSet m.upload_history name history }
    if channel.daily_video_limit ≤ history.length then (false, m')
    else
      match history with
      | [] => (true, m')
      | t :: ts =>
        let last := (t :: ts).foldl max 0
        if now - last < 60 * channel.min_upload_interval_minutes
        then (false, m') else (true, m')

/-- `ChannelManager.record_upload` (`channel_manager.py`, lines 267-271):
append `now` to the channel's history, creating the entry if missing. -/
def record_upload (m : ChannelManager) (now : Nat) (name : String) :
    ChannelManager :=
  { m with
    upload_history :=
      dictSet m.upload_history name
        (((dictGet m.upload_history name).getD []) ++ [now]) }

/-! ### Topic usage cache

The cache object returned by `get_topic_cache()` lives in
`app/services/script_cache.py`, which is not part of the provided sources;
only its caller `ChannelManager.get_random_topic` is. Its selection and
recording operations are therefore modelled from the spec (§4.3). -/

/-- Per-(channel, topic) usage entry: `useCount` and `lastUsedAt`. -/
structure TopicUsage where
  useCount : Nat
  lastUsedAt : Option Nat
deriving DecidableEq, Repr

/-- The topic cache: a map from (channel, topic) to usage. -/
def TopicCache : Type := List ((String × String) × TopicUsage)

/-- Lookup of a (channel, topic) usage entry. -/
def cacheGet (c : TopicCache) (channel topic : String) : Option TopicUsage :=
  (c.find? (fun p => p.1 = (channel, topic))).map (fun p => p.2)

/-- `useCount` of a topic, `0` when never selected. -/
def useCountOf (c : TopicCache) (channel topic : String) : Nat :=
  ((cacheGet c channel topic).map (fun u => u.useCount)).getD 0

/-- Modelled from the spec: `recordUsage(channelId, topic)` of the missing
`script_cache.py` cache — "increments `useCount` and sets `lastUsedAt` to
now" (a topic never selected has no entry, so its count starts at 0). -/
def record_usage (c : TopicCache) (channel topic : String) (now : Nat) :
    TopicCache :=
  ((channel, topic),
    { useCount := useCountOf c channel topic + 1, lastUsedAt := some now }) ::
    c.filter (fun p => p.1 ≠ (channel, topic))

/-- First element of `l` minimising `f` (left-biased). -/
def minBy (f : String → Nat) : List String → Option String
  | [] => none
  | t :: ts => some (ts.foldl (fun best u => if f u < f best then u else best) t)

/-- Modelled from the spec: `get_smart_topic` of the missing
`script_cache.py` cache — prefer a topic with no usage entry; otherwise a
topic tied for the minimum `useCount`. The spec breaks ties uniformly at
random; randomness has no shallow embedding, so this model, like any fixed
sampler, resolves ties deterministically (first in pool order). -/
def get_smart_topic (c : TopicCache) (channel : String)
    (topics : List String) : Option String :=
  match topics.filter (fun t => cacheGet c channel t = none) with
  | t :: _ => some t
  | [] => minBy (useCountOf c channel) topics

/-- `ChannelManager.get_random_topic` (`channel_manager.py`, lines 202-225):
`None` when the channel is unknown or its topic pool is empty; otherwise
select via the cache, record the usage, and hand the topic back. -/
def get_random_topic (m : ChannelManager) (c : TopicCache) (now : Nat)
    (name : String) : Option String × TopicCache :=
  match dictGet m.channels name with
  | none => (none, c)
  | some channel =>
    match channel.topics with
    | [] => (none, c)
    | t :: ts =>
      match get_smart_topic c name (t :: ts) with
      | none => (none, c)
      | some sel => (some sel, record_usage c name sel now)

/-! ### `YouTubeUploader.upload_video` metadata preparation
(`youtube_uploader.py`, lines 160-199). Strings are lists of characters. -/

/-- The tag searched for by `"#Shorts" not in title`. -/
def shortsTag : List Char := "#Shorts".toList

/-- The `shorts_suffix = " #Shorts"` appended for discoverability. -/
def shortsSuffix : List Char := " #Shorts".toList

/-- Python substring test `needle in hay`. -/
def strContains (hay needle : List Char) : Bool :=
  (List.range (hay.length + 1)).any (fun i => needle.isPrefixOf (hay.drop i))

/-- The Shorts title preparation (`youtube_uploader.py`, lines 170-176):
when uploading a Short whose title does not already contain `#Shorts`,
truncate the base title to `100 - len(" #Shorts")` characters when longer
and append the suffix. -/
def prepareShortsTitle (is_shorts : Bool) (title : List Char) : List Char :=
  if is_shorts && !(strContains title shortsTag) then
    let max_title_len := 100 - shortsSuffix.length
    (if max_title_len < title.length then title.take max_title_len else title)
      ++ shortsSuffix
  else title

/-- The `snippet` part of the request body that is sent. -/
structure Snippet where
  title : List Char
  description : List Char
deriving DecidableEq, Repr

/-- The snippet built at `youtube_uploader.py`, lines 179-185:
`title[:100]` and `description[:5000]` after Shorts title preparation. -/
def uploadSnippet (is_shorts : Bool) (title description : List Char) :
    Snippet :=
  { title := (prepareShortsTitle is_shorts title).take 100,
    description := description.take 5000 }

/-- `YouTubeUploader.upload_video` after authentication
(`youtube_uploader.py`, lines 164-225): missing file → `None`; otherwise
build the snippet, run the resumable upload, and return the response —
a non-retriable `HttpError` re-raised by `_resumable_upload` is caught by
the `except HttpError` handler and turned into `None`, `_resumable_upload`
returning `None` (retries exhausted) also yields `None`. Returns the result
together with the backoff sleeps performed. -/
def upload_video (fileExists : Bool) (is_shorts : Bool)
    (title description : List Char) (transport : Nat → ChunkResult)
    (fuel : Nat) : Option Nat × List Nat :=
  if !fileExists then (none, [])
  else
    let _snippet := uploadSnippet is_shorts title description
    match resumableUpload transport fuel with
    | (.success r, sleeps, _) => (some r, sleeps)
    | (_, sleeps, _) => (none, sleeps)

/-! ### `ShortsScheduler` (`app/services/scheduler.py`) -/

/-- A scheduled job as stored by the scheduler: its id, human name and
trigger expression. -/
structure Job where
  id : String
  name : String
  schedule : String
deriving DecidableEq, Repr

/-- Scheduler state: the APScheduler job store and the `self.jobs`
tracking dict (`scheduler.py`, line 60). -/
structure ShortsScheduler where
  store : List (String × Job)
  jobs : List (String × Job)
deriving DecidableEq, Repr

/-- The scheduler with no jobs. -/
def emptyScheduler : ShortsScheduler := { store := [], jobs := [] }

/-- Whitespace fields of a string, as Python `str.split()`: split on
spaces, dropping empty pieces. -/
def fields (cs : List Char) : List (List Char) :=
  (cs.foldr
    (fun c acc =>
      if c = ' ' then [] :: acc
      else
        match acc with
        | [] => [[c]]
        | w :: ws => (c :: w) :: ws)
    []).filter (fun w => w ≠ [])

/-- Characters accepted in a cron field by the model parser. -/
def cronFieldOk (s : List Char) : Bool :=
  s ≠ [] && s.all (fun ch =>
    ch.isDigit || ch = '*' || ch = ',' || ch = '-' || ch = '/')

/-- Modelled from the spec: `CronTrigger.from_crontab` of the external
APScheduler library — parses a five-field cron expression (minute, hour,
day-of-month, month, day-of-week) and raises `ValueError` otherwise. The
model splits on whitespace, requires exactly five fields and well-formed
field syntax; the claims below only distinguish success from failure, not
the precise accepted grammar. -/
def fromCrontab (expr : String) : Option (List (List Char)) :=
  let parts := fields expr.toList
  if parts.length = 5 && parts.all cronFieldOk then some parts else none

/-- `ShortsScheduler.add_channel_job` (`scheduler.py`, lines 93-145).
Any exception — in particular a cron parse failure — is caught and turns
into `return False` with the state as it was at the raise point; the parse
happens before any mutation. On success the existing job (if tracked) is
removed and the new job installed under `job_id = "channel_" + name`. -/
def add_channel_job (s : ShortsScheduler) (channel_name schedule : String) :
    Bool × ShortsScheduler :=
  match fromCrontab schedule with
  | none => (false, s)
  | some _ =>
    let job_id := "channel_" ++ channel_name
    if (dictGet s.jobs job_id).isSome ∧ dictGet s.store job_id = none then
      -- `self.scheduler.remove_job` raises `JobLookupError`; the
      -- surrounding `except` returns False with nothing yet mutated.
      (false, s)
    else
      let store₁ :=
        if (dictGet s.jobs job_id).isSome then dictRemove s.store job_id
        else s.store
      let job : Job :=
        { id := job_id,
          name := "Video generation for " ++ channel_name,
          schedule := schedule }
      (true,
        { store := dictSet store₁ job_id job,
          jobs := dictSet s.jobs job_id job })

/-- `ShortsScheduler.list_jobs` (`scheduler.py`, lines 219-229): one entry
per job in the scheduler's store. -/
def list_jobs (s : ShortsScheduler) : List Job :=
  s.store.map (fun p => p.2)

/-! ### Orchestrator: `generate_and_upload` (`automation.py`, lines 63-179) -/

/-- Video generation parameters assembled by
`ChannelManager.get_video_params` (`channel_manager.py`, lines 273-304). -/
structure VideoParams where
  video_subject : String
  video_language : String
  voice_name : String
deriving DecidableEq, Repr

/-- `ChannelManager.get_video_params`: resolve the channel, select a topic
when none was supplied (mutating the topic cache), and build the parameter
record. -/
def get_video_params (m : ChannelManager) (c : TopicCache) (now : Nat)
    (name : String) (topic : Option String) :
    Option VideoParams × TopicCache :=
  match dictGet m.channels name with
  | none => (none, c)
  | some channel =>
    let sel := match topic with
      | some t => (some t, c)
      | none => get_random_topic m c now name
    match sel with
    | (none, c') => (none, c')
    | (some t, c') =>
      (some { video_subject := t, video_language := channel.language,
              voice_name := channel.voice }, c')

/-- The external collaborators `generate_and_upload` consults, as oracles:
generation (`video_task.start`) either yields a video path or fails,
authentication (`uploader.authenticate`) succeeds or fails, and the upload
(`uploader.upload_video`) either yields a response id or fails. -/
structure OrchestratorEnv where
  genResult : Option String
  authOk : Bool
  uploadResult : Option Nat
deriving DecidableEq, Repr

/-- `generate_and_upload` (`automation.py`, lines 63-179): quota gate
(skipped when `dry_run`), channel resolution, parameter/topic resolution,
generation, then — unless `dry_run` — authentication, upload, and
`record_upload` exactly on upload success. Returns the success flag and
the final manager and cache states. -/
def generate_and_upload (m : ChannelManager) (c : TopicCache)
    (env : OrchestratorEnv) (now todayStart : Nat) (name : String)
    (topic : Option String) (dry_run : Bool) :
    Bool × ChannelManager × TopicCache :=
  let gate := if dry_run then (true, m) else can_upload m now todayStart name
  match gate with
  | (false, m₁) => (false, m₁, c)
  | (true, m₁) =>
    match dictGet m₁.channels name with
    | none => (false, m₁, c)
    | some _channel =>
      match get_video_params m₁ c now name topic with
      | (none, c₁) => (false, m₁, c₁)
      | (some _params, c₁) =>
        match env.genResult with
        | none => (false, m₁, c₁)
        | some _video_path =>
          if dry_run then (true, m₁, c₁)
          else if !env.authOk then (false, m₁, c₁)
          else
            match env.uploadResult with
            | none => (false, m₁, c₁)
            | some _video_id => (true, record_upload m₁ now name, c₁)

/-! ### Derived observations used by the theorems -/

/-- The channel's upload history pruned to the current local day — the list
`can_upload` computes and writes back. -/
def prunedHistory (m : ChannelManager) (todayStart : Nat) (name : String) :
    List Nat :=
  ((dictGet m.upload_history name).getD []).filter (fun t => todayStart ≤ t)

/-- The backoff sleeps performed by a run that enters the error path with
`retry = j` and retries `K` times: `min(2 ** retry, 60)` for
`retry = j+1, …, j+K`. -/
def sleepList (j K : Nat) : List Nat :=
  (List.range K).map (fun i => min (2 ^ (j + 1 + i)) 60)

/-- A chunk outcome the error handler of `_resumable_upload` classifies as
retriable: any non-`HttpError` exception, or an `HttpError` whose status
code is in `RETRIABLE_STATUS_CODES`. -/
def retriableStep (o : ChunkResult) : Prop :=
  o = .exn ∨ ∃ c ∈ RETRIABLE_STATUS_CODES, o = .httpErr c

/-- Number of entries of a job store bound to a given key. -/
def countKey (d : List (String × Job)) (k : String) : Nat :=
  (d.filter (fun p => p.1 = k)).length

/-! ### Helper lemmas -/

theorem find?_filter_of_imp {α : Type} (l : List α) (p q : α → Bool)
    (h : ∀ a, p a = true → q a = true) :
    (l.filter q).find? p = l.find? p := by
  induction l with
  | nil => rfl
  | cons a as ih =>
    by_cases hp : p a = true
    · simp [List.filter_cons, h a hp, List.find?_cons_of_pos, hp]
    · have hp' : p a = false := by simpa using hp
      by_cases hq : q a = true
      · simp [List.filter_cons, hq, List.find?_cons_of_neg, hp', ih]
      · have hq' : q a = false := by simpa using hq
        simp [List.filter_cons, hq', List.find?_cons_of_neg, hp', ih]

theorem dictGet_set_self {α : Type} (d : List (String × α)) (k : String)
    (v : α) : dictGet (dictSet d k v) k = some v := by
  simp [dictGet, dictSet, List.find?_cons_of_pos]

theorem dictGet_set_ne {α : Type} (d : List (String × α)) (k k' : String)
    (v : α) (h : k' ≠ k) : dictGet (dictSet d k v) k' = dictGet d k' := by
  unfold dictGet dictSet
  rw [List.find?_cons_of_neg]
  · rw [find?_filter_of_imp]
    intro a ha
    have : a.1 = k' := by simpa using ha
    simp [this, h]
  · simp [Ne.symm h]

theorem filter_self_idem {α : Type} (l : List α) (p : α → Bool) :
    (l.filter p).filter p = l.filter p := by
  rw [List.filter_filter]
  simp

theorem foldl_min_mem (f : String → Nat) :
    ∀ (as : List String) (a : String),
      as.foldl (fun best u => if f u < f best then u else best) a ∈ a :: as := by
  intro as
  induction as with
  | nil => intro a; simp
  | cons b bs ih =>
    intro a
    simp only [List.foldl_cons]
    rcases List.mem_cons.mp (ih (if f b < f a then b else a)) with heq | hmem
    · rw [heq]
      split
      · exact List.mem_cons_of_mem _ (List.mem_cons_self _ _)
      · exact List.mem_cons_self _ _
    · exact List.mem_cons_of_mem _ (List.mem_cons_of_mem _ hmem)

theorem get_smart_topic_some (c : TopicCache) (channel : String)
    (topics : List String) (h : topics ≠ []) :
    ∃ t ∈ topics, get_smart_topic c channel topics = some t := by
  unfold get_smart_topic
  rcases hf : topics.filter (fun t => cacheGet c channel t = none) with
    _ | ⟨t, ts⟩
  · rcases topics with _ | ⟨a, as⟩
    · exact absurd rfl h
    · exact ⟨_, foldl_min_mem _ as a, rfl⟩
  · refine ⟨t, ?_, rfl⟩
    exact List.mem_of_mem_filter (hf ▸ List.mem_cons_self t ts)

theorem countKey_dictSet_self (d : List (String × Job)) (k : String)
    (v : Job) : countKey (dictSet d k v) k = 1 := by
  simp only [countKey, dictSet, List.filter_cons]
  have hnil : (d.filter (fun p => decide ¬p.1 = k)).filter
      (fun p => decide (p.1 = k)) = [] := by
    rw [List.filter_filter]
    rw [List.filter_eq_nil_iff]
    intro a _
    by_cases h : a.1 = k <;> simp [h]
  simp [hnil]

theorem countKey_dictSet_ne (d : List (String × Job)) (k k' : String)
    (v : Job) (h : k' ≠ k) :
    countKey (dictSet d k v) k' = countKey d k' := by
  simp only [countKey, dictSet, List.filter_cons]
  rw [if_neg (by simp [Ne.symm h])]
  congr 1
  rw [List.filter_filter]
  refine List.filter_congr ?_
  intro a _
  by_cases ha : a.1 = k' <;> simp [ha, h]

theorem countKey_dictRemove_ne (d : List (String × Job)) (k k' : String)
    (h : k' ≠ k) : countKey (dictRemove d k) k' = countKey d k' := by
  simp only [countKey, dictRemove]
  congr 1
  rw [List.filter_filter]
  refine List.filter_congr ?_
  intro a _
  by_cases ha : a.1 = k' <;> simp [ha, h]

theorem can_upload_snd_cases (m : ChannelManager) (now ts : Nat)
    (name : String) :
    (can_upload m now ts name).2 = m ∨
    (can_upload m now ts name).2 =
      ChannelManager.mk m.channels
        (dictSet m.upload_history name (prunedHistory m ts name)) := by
  unfold can_upload
  rcases h : dictGet m.channels name with _ | ch
  · exact Or.inl rfl
  · right
    simp only [prunedHistory]
    split
    · rfl
    · split
      · rfl
      · split <;> rfl

theorem prunedHistory_prune (m : ChannelManager) (ts : Nat)
    (name : String) :
    prunedHistory
        (ChannelManager.mk m.channels
          (dictSet m.upload_history name (prunedHistory m ts name)))
        ts name =
      prunedHistory m ts name := by
  simp only [prunedHistory, dictGet_set_self, Option.getD_some]
  exact filter_self_idem _ _

theorem prunedHistory_record (m : ChannelManager) (ts now : Nat)
    (name : String) (h : ts ≤ now) :
    prunedHistory (record_upload m now name) ts name =
      prunedHistory m ts name ++ [now] := by
  simp only [prunedHistory, record_upload, dictGet_set_self,
    Option.getD_some, List.filter_append]
  simp [h]

theorem add_channel_job_success (s : ShortsScheduler) (name sched : String)
    (p : List (List Char)) (hp : fromCrontab sched = some p)
    (hg : ¬((dictGet s.jobs ("channel_" ++ name)).isSome ∧
      dictGet s.store ("channel_" ++ name) = none)) :
    add_channel_job s name sched =
      (true, ShortsScheduler.mk
        (dictSet
          (if (dictGet s.jobs ("channel_" ++ name)).isSome then
            dictRemove s.store ("channel_" ++ name)
          else s.store)
          ("channel_" ++ name)
          (Job.mk ("channel_" ++ name) ("Video generation for " ++ name)
            sched))
        (dictSet s.jobs ("channel_" ++ name)
          (Job.mk ("channel_" ++ name) ("Video generation for " ++ name)
            sched))) := by
  unfold add_channel_job
  rw [hp, if_neg hg]

theorem sleepList_succ (j k : Nat) :
    sleepList j (k + 1) = min (2 ^ (j + 1)) 60 :: sleepList (j + 1) k := by
  unfold sleepList
  rw [List.range_succ_eq_map, List.map_cons, List.map_map]
  congr 1
  refine List.map_congr_left ?_
  intro i _
  simp only [Function.comp]
  congr 2
  omega

theorem sleepList_pairwise (j K : Nat) :
    List.Pairwise (· ≤ ·) (sleepList j K) := by
  unfold sleepList
  rw [List.pairwise_map]
  refine (List.pairwise_lt_range K).imp ?_
  intro a b hab
  exact min_le_min (Nat.pow_le_pow_right (by norm_num) (by omega)) le_rfl

theorem sleepList_le_cap (j K : Nat) : ∀ x ∈ sleepList j K, x ≤ 60 := by
  intro x hx
  obtain ⟨i, _, rfl⟩ := List.mem_map.mp hx
  exact min_le_right _ _

/-- Running the retry loop from `retry = j` against a transport whose first
`K` calls each fail retriably and whose call `K` completes: success after
exactly `K` further retries, with one backoff sleep per retry and `K + 1`
calls into the same request. -/
theorem resumableUploadAux_success (K : Nat) :
    ∀ (transport : Nat → ChunkResult) (j fuel r : Nat),
      (∀ i, i < K → retriableStep (transport i)) →
      transport K = .done r →
      j + K ≤ MAX_RETRIES →
      K + 1 ≤ fuel →
      resumableUploadAux transport j fuel =
        (.success r, sleepList j K, K + 1) := by
  induction K with
  | zero =>
    intro transport j fuel r _ hdone _ hfuel
    obtain ⟨f, rfl⟩ : ∃ f, fuel = f + 1 := ⟨fuel - 1, by omega⟩
    simp [resumableUploadAux, hdone, sleepList]
  | succ k ih =>
    intro transport j fuel r hfail hdone hj hfuel
    obtain ⟨f, rfl⟩ : ∃ f, fuel = f + 1 := ⟨fuel - 1, by omega⟩
    have hM : MAX_RETRIES = 10 := rfl
    have hrec := ih (fun i => transport (i + 1)) (j + 1) f r
      (fun i hi => hfail (i + 1) (by omega)) hdone (by omega) (by omega)
    rcases hfail 0 (by omega) with h0 | ⟨c, hc, h0⟩
    · simp only [resumableUploadAux, h0]
      rw [if_neg (by omega), hrec, sleepList_succ]
    · simp only [resumableUploadAux, h0]
      rw [if_pos hc, if_neg (by omega), hrec, sleepList_succ]

/-- Running the retry loop from `retry = j` with `j + n = MAX_RETRIES`
against a transport that always fails retriably: the loop stops with
`None` ("retries exhausted") after `n` further backoff sleeps and `n + 1`
further calls. -/
theorem resumableUploadAux_exhaust (n : Nat) :
    ∀ (transport : Nat → ChunkResult) (j fuel : Nat),
      (∀ i, retriableStep (transport i)) →
      j + n = MAX_RETRIES →
      n + 1 ≤ fuel →
      resumableUploadAux transport j fuel =
        (.exhausted, sleepList j n, n + 1) := by
  induction n with
  | zero =>
    intro transport j fuel hfail hj hfuel
    obtain ⟨f, rfl⟩ : ∃ f, fuel = f + 1 := ⟨fuel - 1, by omega⟩
    have hM : MAX_RETRIES = 10 := rfl
    rcases hfail 0 with h0 | ⟨c, hc, h0⟩
    · simp only [resumableUploadAux, h0]
      rw [if_pos (by omega)]
      simp [sleepList]
    · simp only [resumableUploadAux, h0]
      rw [if_pos hc, if_pos (by omega)]
      simp [sleepList]
  | succ k ih =>
    intro transport j fuel hfail hj hfuel
    obtain ⟨f, rfl⟩ : ∃ f, fuel = f + 1 := ⟨fuel - 1, by omega⟩
    have hM : MAX_RETRIES = 10 := rfl
    have hrec := ih (fun i => transport (i + 1)) (j + 1) f
      (fun i => hfail (i + 1)) (by omega) (by omega)
    rcases hfail 0 with h0 | ⟨c, hc, h0⟩
    · simp only [resumableUploadAux, h0]
      rw [if_neg (by omega), hrec, sleepList_succ]
    · simp only [resumableUploadAux, h0]
      rw [if_pos hc, if_neg (by omega), hrec, sleepList_succ]

/-! ### Claim theorems -/

/-- **C1.** `can_upload` first prunes the channel's upload timestamps to
those at or after the start of the current local day (writing the pruned
list back), then denies when the pruned count reaches `daily_video_limit`,
then denies when the pruned history is non-empty and fewer than
`min_upload_interval_minutes` minutes have elapsed since the most recent
timestamp (`now - last < 60 * I` in seconds), and otherwise allows; a zero
daily limit always denies, a zero minimum interval disables the interval
check, and an unknown channel is denied with the state untouched
(fails closed). -/
theorem can_upload_spec (m : ChannelManager) (now todayStart : Nat)
    (name : String) :
    (dictGet m.channels name = none →
      can_upload m now todayStart name = (false, m)) ∧
    (∀ ch, dictGet m.channels name = some ch →
      (can_upload m now todayStart name).2 =
        ChannelManager.mk m.channels
          (dictSet m.upload_history name (prunedHistory m todayStart name)) ∧
      ((can_upload m now todayStart name).1 = true ↔
        (prunedHistory m todayStart name).length < ch.daily_video_limit ∧
          (prunedHistory m todayStart name = [] ∨
            60 * ch.min_upload_interval_minutes ≤
              now - (prunedHistory m todayStart name).foldl max 0)) ∧
      (ch.daily_video_limit = 0 →
        (can_upload m now todayStart name).1 = false) ∧
      (ch.min_upload_interval_minutes = 0 →
        (can_upload m now todayStart name).1 =
          decide ((prunedHistory m todayStart name).length <
            ch.daily_video_limit))) := by
  constructor
  · intro h
    simp [can_upload, h]
  · intro ch hch
    have hcu :
        can_upload m now todayStart name =
          (if ch.daily_video_limit ≤ (prunedHistory m todayStart name).length
            then false
            else
              match prunedHistory m todayStart name with
              | [] => true
              | t :: ts =>
                decide ¬(now - (t :: ts).foldl max 0 <
                  60 * ch.min_upload_interval_minutes),
            ChannelManager.mk m.channels
              (dictSet m.upload_history name
                (prunedHistory m todayStart name))) := by
      simp only [can_upload, hch, prunedHistory]
      split
      · rfl
      · split
        · rfl
        · split <;> simp_all
    rw [hcu]
    refine ⟨by split <;> [rfl; (split <;> rfl)], ?_, ?_, ?_⟩
    · constructor
      · intro h
        by_cases hlen :
            ch.daily_video_limit ≤ (prunedHistory m todayStart name).length
        · rw [if_pos hlen] at h; exact absurd h (by simp)
        · rw [if_neg hlen] at h
          refine ⟨by omega, ?_⟩
          rcases hP : prunedHistory m todayStart name with _ | ⟨t, ts⟩
          · exact Or.inl rfl
          · rw [hP] at h
            simp only [decide_eq_true_eq] at h
            exact Or.inr (by omega)
      · rintro ⟨hlen, hrest⟩
        rw [if_neg (by omega)]
        rcases hP : prunedHistory m todayStart name with _ | ⟨t, ts⟩
        · rfl
        · rcases hrest with h | h
          · rw [hP] at h; cases h
          · rw [hP] at h
            simp only [decide_eq_true_eq]
            omega
    · intro h
      rw [if_pos (by omega)]
    · intro h
      by_cases hlen :
          ch.daily_video_limit ≤ (prunedHistory m todayStart name).length
      · rw [if_pos hlen]
        have hd : ¬ (prunedHistory m todayStart name).length <
            ch.daily_video_limit := by omega
        simp [hd]
      · rw [if_neg hlen]
        rcases hP : prunedHistory m todayStart name with _ | ⟨t, ts⟩
        · rw [hP] at hlen
          have hd : 0 < ch.daily_video_limit := by simp at hlen; omega
          simp [hd]
        · rw [hP] at hlen
          have hd : ts.length + 1 < ch.daily_video_limit := by
            simp at hlen; omega
          simp [h, hd]

/-- **C1 witness.** A concrete manager with one configured channel:
the channel with a fresh history is allowed, and an unknown channel is
denied. -/
theorem can_upload_spec_witness :
    dictGet
        (ChannelManager.mk
          [("c", { name := "c", topics := ["t"], schedule := "0 9 * * *" })]
          [("c", [40, 120])]).channels "c" =
      some { name := "c", topics := ["t"], schedule := "0 9 * * *" } ∧
    (can_upload
        (ChannelManager.mk
          [("c", { name := "c", topics := ["t"], schedule := "0 9 * * *" })]
          [("c", [40, 120])]) 5000 100 "c").1 = true := by
  refine ⟨by decide, ?_⟩
  have h :=
    ((can_upload_spec
        (ChannelManager.mk
          [("c", { name := "c", topics := ["t"], schedule := "0 9 * * *" })]
          [("c", [40, 120])]) 5000 100 "c").2
      { name := "c", topics := ["t"], schedule := "0 9 * * *" }
      (by decide)).2.1
  exact h.mpr (by decide)

/-- **C2.** Against a transport that answers the first `K ≤ MAX_RETRIES`
chunk-send attempts with a retriable-status `HttpError` (500/502/503/504)
and completes on attempt `K`, the resumable upload succeeds after exactly
`K` retries: the same in-progress request is re-issued each time (exactly
`K + 1` calls into it, no restart from zero), `upload_video` reports the
response, and the backoff sleeps are `min(2 ** retry, 60)` for
`retry = 1, …, K` — a non-decreasing sequence capped at 60 seconds. -/
theorem publish_retries_then_succeeds (K : Nat) (hK : K ≤ MAX_RETRIES)
    (transport : Nat → ChunkResult) (code : Nat → Nat) (r : Nat)
    (hfail : ∀ i, i < K →
      code i ∈ RETRIABLE_STATUS_CODES ∧ transport i = .httpErr (code i))
    (hdone : transport K = .done r) (fuel : Nat) (hfuel : K + 1 ≤ fuel) :
    resumableUpload transport fuel =
      (.success r, (List.range K).map (fun i => min (2 ^ (i + 1)) 60),
        K + 1) ∧
    (∀ is_shorts title description,
      upload_video true is_shorts title description transport fuel =
        (some r, (List.range K).map (fun i => min (2 ^ (i + 1)) 60))) ∧
    ((List.range K).map (fun i => min (2 ^ (i + 1)) 60)).length = K ∧
    List.Pairwise (· ≤ ·)
      ((List.range K).map (fun i => min (2 ^ (i + 1)) 60)) ∧
    (∀ x ∈ (List.range K).map (fun i => min (2 ^ (i + 1)) 60), x ≤ 60) := by
  have hs : sleepList 0 K =
      (List.range K).map (fun i => min (2 ^ (i + 1)) 60) := by
    refine List.map_congr_left ?_
    intro i _
    congr 2
    omega
  have hrun := resumableUploadAux_success K transport 0 fuel r
    (fun i hi => Or.inr ⟨code i, (hfail i hi).1, (hfail i hi).2⟩)
    hdone (by omega) hfuel
  rw [hs] at hrun
  refine ⟨hrun, ?_, by simp, hs ▸ sleepList_pairwise 0 K,
    hs ▸ sleepList_le_cap 0 K⟩
  intro is_shorts title description
  simp only [upload_video, resumableUpload] at *
  rw [hrun]
  rfl

/-- **C2 witness.** Two 503 failures then completion: success response 7,
backoff sleeps `[2, 4]`, three calls into the request. -/
theorem publish_retries_then_succeeds_witness :
    resumableUpload
        (fun i => if i < 2 then .httpErr 503 else .done 7) 5 =
      (.success 7, [2, 4], 3) := by
  have h := (publish_retries_then_succeeds 2 (by decide)
    (fun i => if i < 2 then .httpErr 503 else .done 7) (fun _ => 503) 7
    (fun i hi => ⟨show (503 : Nat) ∈ RETRIABLE_STATUS_CODES by decide,
      by simp [hi]⟩) (by decide) 5 (by decide)).1
  rw [h]
  decide

/-- **C3.** A first chunk-send attempt failing with an `HttpError` whose
status code is outside `{500, 502, 503, 504}` ends the transfer at once:
the error is re-raised out of the retry loop (outcome `raised code`) after
a single call, with zero retries and zero backoff sleeps, and
`upload_video` catches it and reports failure. -/
theorem publish_nonretriable_fails_immediately
    (transport : Nat → ChunkResult) (c : Nat)
    (hc : c ∉ RETRIABLE_STATUS_CODES) (h0 : transport 0 = .httpErr c)
    (fuel : Nat) (hfuel : 1 ≤ fuel) :
    resumableUpload transport fuel = (.raised c, [], 1) ∧
    (∀ is_shorts title description,
      upload_video true is_shorts title description transport fuel =
        (none, [])) := by
  obtain ⟨f, rfl⟩ : ∃ f, fuel = f + 1 := ⟨fuel - 1, by omega⟩
  have hrun : resumableUpload transport (f + 1) = (.raised c, [], 1) := by
    simp only [resumableUpload, resumableUploadAux, h0]
    rw [if_neg hc]
  refine ⟨hrun, ?_⟩
  intro is_shorts title description
  simp only [upload_video, resumableUpload] at *
  rw [hrun]
  rfl

/-- **C3 witness.** One 403 (auth-class) failure: raised immediately, one
call, no sleeps, upload reports failure. -/
theorem publish_nonretriable_fails_immediately_witness :
    resumableUpload (fun _ => .httpErr 403) 9 = (.raised 403, [], 1) ∧
    upload_video true true [] [] (fun _ => .httpErr 403) 9 = (none, []) := by
  have h := publish_nonretriable_fails_immediately
    (fun _ => .httpErr 403) 403 (by decide) rfl 9 (by decide)
  exact ⟨h.1, h.2 true [] []⟩

/-- **C4.** Against a transport that fails with a retriable status on every
attempt, the resumable upload stops with the failure result (`None`,
"Max retries exceeded") as soon as the retry count exceeds
`MAX_RETRIES = 10`: exactly 10 retries (10 backoff sleeps, 11 calls) are
performed and none beyond the ceiling, the concrete sleep sequence being
`[2, 4, 8, 16, 32, 60, 60, 60, 60, 60]`. -/
theorem publish_retries_exhausted (transport : Nat → ChunkResult)
    (code : Nat → Nat)
    (hfail : ∀ i,
      code i ∈ RETRIABLE_STATUS_CODES ∧ transport i = .httpErr (code i))
    (fuel : Nat) (hfuel : MAX_RETRIES + 1 ≤ fuel) :
    resumableUpload transport fuel =
      (.exhausted, [2, 4, 8, 16, 32, 60, 60, 60, 60, 60],
        MAX_RETRIES + 1) := by
  have hrun := resumableUploadAux_exhaust MAX_RETRIES transport 0 fuel
    (fun i => Or.inr ⟨code i, (hfail i).1, (hfail i).2⟩) (by omega) hfuel
  rw [show sleepList 0 MAX_RETRIES =
    [2, 4, 8, 16, 32, 60, 60, 60, 60, 60] from by decide] at hrun
  exact hrun

/-- **C4 witness.** A transport always answering 500: exhaustion after 10
retries and 11 calls. -/
theorem publish_retries_exhausted_witness :
    resumableUpload (fun _ => .httpErr 500) 20 =
      (.exhausted, [2, 4, 8, 16, 32, 60, 60, 60, 60, 60], 11) := by
  have h := publish_retries_exhausted (fun _ => .httpErr 500)
    (fun _ => 500)
    (fun i => ⟨show (500 : Nat) ∈ RETRIABLE_STATUS_CODES by decide, rfl⟩)
    20 (by decide)
  exact h

/-- **C10.** Exceptions raised by a chunk-send attempt that are not
`HttpError`s carrying a status code are classified as retriable: a run
whose first `K ≤ 10` attempts each raise either such an exception or a
retriable-status `HttpError` still completes with the same backoff
schedule `min(2 ** retry, 60)`; when every attempt raises a non-HTTP
exception the loop retries up to the ceiling and then stops exhausted;
only an `HttpError` with a status outside the retriable set terminates the
transfer without any retry. -/
theorem nonhttp_exceptions_are_retriable :
    (∀ (K : Nat), K ≤ MAX_RETRIES →
      ∀ (transport : Nat → ChunkResult) (r : Nat),
        (∀ i, i < K → retriableStep (transport i)) →
        transport K = .done r →
        ∀ fuel, K + 1 ≤ fuel →
          resumableUpload transport fuel =
            (.success r, (List.range K).map (fun i => min (2 ^ (i + 1)) 60),
              K + 1)) ∧
    (∀ (transport : Nat → ChunkResult),
      (∀ i, transport i = .exn) →
      ∀ fuel, MAX_RETRIES + 1 ≤ fuel →
        resumableUpload transport fuel =
          (.exhausted,
            (List.range MAX_RETRIES).map (fun i => min (2 ^ (i + 1)) 60),
            MAX_RETRIES + 1)) ∧
    (∀ (transport : Nat → ChunkResult) (c : Nat),
      c ∉ RETRIABLE_STATUS_CODES → transport 0 = .httpErr c →
      ∀ fuel, 1 ≤ fuel →
        resumableUpload transport fuel = (.raised c, [], 1)) := by
  have hs : ∀ j, sleepList 0 j =
      (List.range j).map (fun i => min (2 ^ (i + 1)) 60) := by
    intro j
    refine List.map_congr_left ?_
    intro i _
    congr 2
    omega
  refine ⟨?_, ?_, ?_⟩
  · intro K hK transport r hfail hdone fuel hfuel
    have hrun := resumableUploadAux_success K transport 0 fuel r hfail hdone
      (by omega) hfuel
    rw [hs K] at hrun
    exact hrun
  · intro transport hfail fuel hfuel
    have hrun := resumableUploadAux_exhaust MAX_RETRIES transport 0 fuel
      (fun i => Or.inl (hfail i)) (by omega) hfuel
    rw [hs MAX_RETRIES] at hrun
    exact hrun
  · intro transport c hc h0 fuel hfuel
    obtain ⟨f, rfl⟩ : ∃ f, fuel = f + 1 := ⟨fuel - 1, by omega⟩
    simp only [resumableUpload, resumableUploadAux, h0]
    rw [if_neg hc]

/-- **C10 witness.** One network-level exception then completion: the
exception is retried (backoff sleep 2 seconds) and the upload succeeds. -/
theorem nonhttp_exceptions_are_retriable_witness :
    resumableUpload (fun i => if i < 1 then .exn else .done 9) 4 =
      (.success 9, [2], 2) := by
  have h := nonhttp_exceptions_are_retriable.1 1 (by decide)
    (fun i => if i < 1 then .exn else .done 9) 9
    (fun i hi => Or.inl (by simp [hi])) (by decide) 4 (by decide)
  rw [h]
  decide

/-- **C7.** The snippet sent for a Shorts upload carries a title of at most
100 characters and a description of at most 5000 characters; when the given
title does not already contain `#Shorts`, the base title is truncated to
`100 - len(" #Shorts")` characters first, so the appended `" #Shorts"`
suffix always fits and the final title ends with it. -/
theorem upload_metadata_limits (title description : List Char) :
    (uploadSnippet true title description).title.length ≤ 100 ∧
    (uploadSnippet true title description).description.length ≤ 5000 ∧
    (strContains title shortsTag = false →
      List.IsSuffix shortsSuffix
        (uploadSnippet true title description).title) := by
  have hdesc : (uploadSnippet true title description).description.length ≤
      5000 := by
    simp [uploadSnippet]
  by_cases h : strContains title shortsTag = true
  · refine ⟨?_, hdesc, ?_⟩
    · simp [uploadSnippet, prepareShortsTitle, h]
    · intro hfalse
      rw [h] at hfalse
      cases hfalse
  · have h' : strContains title shortsTag = false := by
      simpa using h
    have h8 : shortsSuffix.length = 8 := rfl
    have hbl :
        (if 100 - shortsSuffix.length < title.length then
            title.take (100 - shortsSuffix.length)
          else title).length ≤ 92 := by
      split
      · simpa [List.length_take] using by omega
      · next hnl => omega
    have hform : prepareShortsTitle true title =
        (if 100 - shortsSuffix.length < title.length then
            title.take (100 - shortsSuffix.length)
          else title) ++ shortsSuffix := by
      simp [prepareShortsTitle, h']
    have hlen : (prepareShortsTitle true title).length ≤ 100 := by
      rw [hform, List.length_append]
      omega
    have htake : (prepareShortsTitle true title).take 100 =
        prepareShortsTitle true title := List.take_of_length_le hlen
    refine ⟨?_, hdesc, fun _ => ?_⟩
    · simpa [uploadSnippet, htake] using hlen
    · refine ⟨if 100 - shortsSuffix.length < title.length then
          title.take (100 - shortsSuffix.length) else title, ?_⟩
      simp only [uploadSnippet]
      rw [htake, hform]

/-- **C7 witness.** A plain title gains the `" #Shorts"` suffix within the
limit. -/
theorem upload_metadata_limits_witness :
    strContains "My video".toList shortsTag = false ∧
    List.IsSuffix shortsSuffix
      (uploadSnippet true "My video".toList "d".toList).title :=
  ⟨by decide,
    (upload_metadata_limits "My video".toList "d".toList).2.2 (by decide)⟩

/-- **C8.** `get_random_topic` on an unknown channel or an empty topic pool
returns no topic and leaves the usage cache untouched; on a configured
channel with a non-empty pool it returns a topic from the pool and the
cache it hands back is the input cache with exactly one `record_usage`
applied to that topic (the recording is already in the returned state, so
a later generation/publish failure cannot undo it), incrementing its
`useCount` by one. -/
theorem get_random_topic_spec (m : ChannelManager) (c : TopicCache)
    (now : Nat) (name : String) :
    (dictGet m.channels name = none →
      get_random_topic m c now name = (none, c)) ∧
    (∀ ch, dictGet m.channels name = some ch → ch.topics = [] →
      get_random_topic m c now name = (none, c)) ∧
    (∀ ch, dictGet m.channels name = some ch → ch.topics ≠ [] →
      ∃ t ∈ ch.topics,
        get_random_topic m c now name =
          (some t, record_usage c name t now) ∧
        useCountOf (record_usage c name t now) name t =
          useCountOf c name t + 1) := by
  refine ⟨?_, ?_, ?_⟩
  · intro h
    simp [get_random_topic, h]
  · intro ch hch htop
    simp [get_random_topic, hch, htop]
  · intro ch hch htop
    rcases hT : ch.topics with _ | ⟨t0, ts⟩
    · exact absurd hT htop
    · obtain ⟨t, hmem, hsel⟩ :=
        get_smart_topic_some c name (t0 :: ts) (by simp)
      refine ⟨t, hT ▸ hmem, ?_, ?_⟩
      · simp [get_random_topic, hch, hT, hsel]
      · simp [useCountOf, cacheGet, record_usage, List.find?_cons_of_pos]

/-- **C8 witness.** A fresh cache and a two-topic channel: the first topic
is selected, recorded once, and its count becomes 1. -/
theorem get_random_topic_spec_witness :
    (["a", "b"] : List String) ≠ [] ∧
    ∃ t ∈ (["a", "b"] : List String),
      get_random_topic
          (ChannelManager.mk
            [("c", { name := "c", topics := ["a", "b"],
                     schedule := "0 9 * * *" })] [])
          ([] : TopicCache) 5 "c" =
        (some t, record_usage ([] : TopicCache) "c" t 5) ∧
      useCountOf (record_usage ([] : TopicCache) "c" t 5) "c" t =
        useCountOf ([] : TopicCache) "c" t + 1 :=
  ⟨by decide,
    (get_random_topic_spec
        (ChannelManager.mk
          [("c", { name := "c", topics := ["a", "b"],
                   schedule := "0 9 * * *" })] [])
        ([] : TopicCache) 5 "c").2.2
      { name := "c", topics := ["a", "b"], schedule := "0 9 * * *" }
      (by decide) (by decide)⟩

/-- **C6.** Registering a job twice for the same channel (two successful
`add_channel_job` calls, from any scheduler state that tracks only jobs it
actually installed) leaves exactly one trigger for `channel_<name>` in the
job store — the prior job is removed before the new one is installed — the
surviving job is the one of the second registration, and no other
channel's job count changes; hence at most one job per channel holds after
every sequence of registrations. -/
theorem add_channel_job_single_trigger (s : ShortsScheduler)
    (name sched1 sched2 : String)
    (h1 : (fromCrontab sched1).isSome = true)
    (h2 : (fromCrontab sched2).isSome = true)
    (hw : (dictGet s.jobs ("channel_" ++ name)).isSome →
      (dictGet s.store ("channel_" ++ name)).isSome) :
    (add_channel_job s name sched1).1 = true ∧
    (add_channel_job (add_channel_job s name sched1).2 name sched2).1 =
      true ∧
    countKey
        (add_channel_job (add_channel_job s name sched1).2 name
          sched2).2.store ("channel_" ++ name) = 1 ∧
    dictGet
        (add_channel_job (add_channel_job s name sched1).2 name
          sched2).2.store ("channel_" ++ name) =
      some (Job.mk ("channel_" ++ name)
        ("Video generation for " ++ name) sched2) ∧
    (∀ k, k ≠ "channel_" ++ name →
      countKey
          (add_channel_job (add_channel_job s name sched1).2 name
            sched2).2.store k = countKey s.store k) := by
  obtain ⟨p1, hp1⟩ := Option.isSome_iff_exists.mp h1
  obtain ⟨p2, hp2⟩ := Option.isSome_iff_exists.mp h2
  have hg1 : ¬((dictGet s.jobs ("channel_" ++ name)).isSome ∧
      dictGet s.store ("channel_" ++ name) = none) := by
    rintro ⟨ha, hb⟩
    have := hw ha
    rw [hb] at this
    simp at this
  have hs1 := add_channel_job_success s name sched1 p1 hp1 hg1
  have h21 : (add_channel_job s name sched1).2 =
      ShortsScheduler.mk
        (dictSet
          (if (dictGet s.jobs ("channel_" ++ name)).isSome then
            dictRemove s.store ("channel_" ++ name)
          else s.store)
          ("channel_" ++ name)
          (Job.mk ("channel_" ++ name)
            ("Video generation for " ++ name) sched1))
        (dictSet s.jobs ("channel_" ++ name)
          (Job.mk ("channel_" ++ name)
            ("Video generation for " ++ name) sched1)) := by
    rw [hs1]
  rw [h21]
  have hg2 : ¬((dictGet
        (ShortsScheduler.mk
          (dictSet
            (if (dictGet s.jobs ("channel_" ++ name)).isSome then
              dictRemove s.store ("channel_" ++ name)
            else s.store)
            ("channel_" ++ name)
            (Job.mk ("channel_" ++ name)
              ("Video generation for " ++ name) sched1))
          (dictSet s.jobs ("channel_" ++ name)
            (Job.mk ("channel_" ++ name)
              ("Video generation for " ++ name) sched1))).jobs
        ("channel_" ++ name)).isSome ∧
      dictGet
        (ShortsScheduler.mk
          (dictSet
            (if (dictGet s.jobs ("channel_" ++ name)).isSome then
              dictRemove s.store ("channel_" ++ name)
            else s.store)
            ("channel_" ++ name)
            (Job.mk ("channel_" ++ name)
              ("Video generation for " ++ name) sched1))
          (dictSet s.jobs ("channel_" ++ name)
            (Job.mk ("channel_" ++ name)
              ("Video generation for " ++ name) sched1))).store
        ("channel_" ++ name) = none) := by
    rintro ⟨_, hb⟩
    simp only [dictGet_set_self] at hb
    cases hb
  have hs2 := add_channel_job_success _ name sched2 p2 hp2 hg2
  rw [hs2]
  refine ⟨by rw [hs1], rfl, countKey_dictSet_self _ _ _,
    dictGet_set_self _ _ _, ?_⟩
  intro k hk
  rw [countKey_dictSet_ne _ _ _ _ hk, dictGet_set_self,
    Option.isSome_some, if_pos rfl, countKey_dictRemove_ne _ _ _ hk,
    countKey_dictSet_ne _ _ _ _ hk]
  split
  · exact countKey_dictRemove_ne _ _ _ hk
  · rfl

/-- **C6 witness.** Registering channel `x` twice from the empty scheduler:
both calls succeed and exactly the second job survives. -/
theorem add_channel_job_single_trigger_witness :
    countKey
        (add_channel_job (add_channel_job emptyScheduler "x"
          "0 9 * * *").2 "x" "0 10 * * *").2.store ("channel_" ++ "x") =
      1 ∧
    dictGet
        (add_channel_job (add_channel_job emptyScheduler "x"
          "0 9 * * *").2 "x" "0 10 * * *").2.store ("channel_" ++ "x") =
      some (Job.mk ("channel_" ++ "x") ("Video generation for " ++ "x")
        "0 10 * * *") := by
  have h := add_channel_job_single_trigger emptyScheduler "x"
    "0 9 * * *" "0 10 * * *" (by decide) (by decide)
    (fun h => absurd h (by decide))
  exact ⟨h.2.2.1, h.2.2.2.1⟩

/-- **C9 (amended).** When the cron expression fails to parse,
`add_channel_job` reports the failure (returns `False`) and performs no
scheduling change at all: the scheduler state is exactly as before the
call, so no new trigger is installed — but a trigger installed by an
earlier successful registration for the same channel remains installed
(the parse failure is raised before the old job is removed), and a channel
with no prior trigger remains unscheduled. -/
theorem add_channel_job_parse_failure (s : ShortsScheduler)
    (name sched : String) (h : fromCrontab sched = none) :
    add_channel_job s name sched = (false, s) := by
  unfold add_channel_job
  rw [h]

/-- **C9 witness.** A bad expression against the empty scheduler: failure
reported, state unchanged, channel unscheduled. -/
theorem add_channel_job_parse_failure_witness :
    fromCrontab "bad" = none ∧
    add_channel_job emptyScheduler "x" "bad" = (false, emptyScheduler) :=
  ⟨by decide, add_channel_job_parse_failure emptyScheduler "x" "bad"
    (by decide)⟩

/-- **C9 counterexample.** The claim as stated — "no trigger for that
channelId is installed or remains installed after the call" — is false:
schedule channel `x` successfully, then call `add_channel_job` for `x`
with the unparsable expression `"bad"`; the call returns `False`, yet the
previously installed trigger for `x` is still in the job store. -/
theorem add_channel_job_parse_failure_counterexample :
    (add_channel_job (add_channel_job emptyScheduler "x"
      "0 9 * * *").2 "x" "bad").1 = false ∧
    dictGet (add_channel_job (add_channel_job emptyScheduler "x"
        "0 9 * * *").2 "x" "bad").2.store "channel_x" =
      some (Job.mk "channel_x" "Video generation for x" "0 9 * * *") ∧
    list_jobs (add_channel_job (add_channel_job emptyScheduler "x"
      "0 9 * * *").2 "x" "bad").2 ≠ [] := by
  decide

/-- **C5 (amended).** In a non-dry-run `generate_and_upload` invocation,
a new quota timestamp is recorded if and only if the upload returned
success: on success the upload result is present and the channel's
current-day history gains exactly the appended `now`; on any failure
(quota denial, unknown channel, topic/parameter failure, generation
failure, credential failure, or upload failure) the invocation returns
failure and the channel's current-day history is exactly what it was —
no timestamp is appended, although the quota check may have pruned
timestamps from before the current day out of the stored history. -/
theorem generate_and_upload_records_iff_success (m : ChannelManager)
    (c : TopicCache) (env : OrchestratorEnv) (now todayStart : Nat)
    (name : String) (topic : Option String) (hts : todayStart ≤ now) :
    ((generate_and_upload m c env now todayStart name topic false).1 =
        true →
      env.uploadResult.isSome = true ∧
      prunedHistory
          (generate_and_upload m c env now todayStart name topic
            false).2.1 todayStart name =
        prunedHistory m todayStart name ++ [now]) ∧
    ((generate_and_upload m c env now todayStart name topic false).1 =
        false →
      prunedHistory
          (generate_and_upload m c env now todayStart name topic
            false).2.1 todayStart name =
        prunedHistory m todayStart name) := by
  rcases hg : can_upload m now todayStart name with ⟨b, m₁⟩
  have hm₁ : prunedHistory m₁ todayStart name =
      prunedHistory m todayStart name := by
    have hc := can_upload_snd_cases m now todayStart name
    rw [hg] at hc
    rcases hc with h | h
    · rw [show m₁ = m from h]
    · rw [show m₁ = _ from h]
      exact prunedHistory_prune m todayStart name
  simp only [generate_and_upload, Bool.false_eq_true, if_false, hg]
  cases b
  · dsimp only
    exact ⟨fun h => Bool.noConfusion h, fun _ => hm₁⟩
  · dsimp only
    rcases hch : dictGet m₁.channels name with _ | ch
    · exact ⟨fun h => Bool.noConfusion h, fun _ => hm₁⟩
    · dsimp only
      rcases hv : get_video_params m₁ c now name topic with ⟨po, c₁⟩
      rcases po with _ | params
      · dsimp only
        exact ⟨fun h => Bool.noConfusion h, fun _ => hm₁⟩
      · dsimp only
        rcases hgen : env.genResult with _ | v
        · exact ⟨fun h => Bool.noConfusion h, fun _ => hm₁⟩
        · dsimp only
          cases hA : env.authOk
          · rw [if_pos (show (!false) = true from rfl)]
            exact ⟨fun h => Bool.noConfusion h, fun _ => hm₁⟩
          · rw [if_neg (show ¬(!true) = true from fun h => Bool.noConfusion h)]
            rcases hup : env.uploadResult with _ | vid
            · exact ⟨fun h => Bool.noConfusion h, fun _ => hm₁⟩
            · dsimp only
              refine ⟨fun _ => ⟨rfl, ?_⟩, fun h => Bool.noConfusion h⟩
              rw [prunedHistory_record m₁ todayStart now name hts, hm₁]

/-- **C5 witness.** A successful run: channel found, quota clear,
generation, credential and upload all succeed — the rate-limit record for
`now = 200` is appended to the (empty) current-day history. -/
theorem generate_and_upload_records_iff_success_witness :
    (generate_and_upload
        (ChannelManager.mk
          [("c", { name := "c", topics := ["t"],
                   schedule := "0 9 * * *" })] [("c", [])])
        ([] : TopicCache)
        (OrchestratorEnv.mk (some "v.mp4") true (some 7)) 200 100 "c"
        (some "tp") false).1 = true ∧
    (OrchestratorEnv.mk (some "v.mp4") true (some 7)).uploadResult.isSome =
      true ∧
    prunedHistory
        (generate_and_upload
          (ChannelManager.mk
            [("c", { name := "c", topics := ["t"],
                     schedule := "0 9 * * *" })] [("c", [])])
          ([] : TopicCache)
          (OrchestratorEnv.mk (some "v.mp4") true (some 7)) 200 100 "c"
          (some "tp") false).2.1 100 "c" =
      prunedHistory
          (ChannelManager.mk
            [("c", { name := "c", topics := ["t"],
                     schedule := "0 9 * * *" })] [("c", [])]) 100 "c" ++
        [200] := by
  refine ⟨by decide, ?_⟩
  exact (generate_and_upload_records_iff_success
      (ChannelManager.mk
        [("c", { name := "c", topics := ["t"],
                 schedule := "0 9 * * *" })] [("c", [])])
      ([] : TopicCache)
      (OrchestratorEnv.mk (some "v.mp4") true (some 7)) 200 100 "c"
      (some "tp") (by decide)).1 (by decide)

/-- **C5 counterexample.** The claim's "on generation failure … the
channel's quota history is left unchanged" is false as stated: with a
stale timestamp `0` in the history and `todayStart = 100`, a non-dry-run
invocation whose generation fails returns failure, yet the stored history
for the channel has changed from `[0]` to `[]` — the quota gate pruned the
pre-today timestamp in place. -/
theorem generate_and_upload_quota_counterexample :
    (generate_and_upload
        (ChannelManager.mk
          [("c", { name := "c", topics := ["t"],
                   schedule := "0 9 * * *" })] [("c", [0])])
        ([] : TopicCache) (OrchestratorEnv.mk none true none) 200 100 "c"
        (some "tp") false).1 = false ∧
    dictGet
        (ChannelManager.mk
          [("c", { name := "c", topics := ["t"],
                   schedule := "0 9 * * *" })]
          [("c", [0])]).upload_history "c" = some [0] ∧
    dictGet
        (generate_and_upload
          (ChannelManager.mk
            [("c", { name := "c", topics := ["t"],
                     schedule := "0 9 * * *" })] [("c", [0])])
          ([] : TopicCache) (OrchestratorEnv.mk none true none) 200 100
          "c" (some "tp") false).2.1.upload_history "c" = some [] := by
  decide

end Shorts
